import Mathlib

/-!
Verification of the mitene_download repository (two variants of the tool:
`downloader.py`, called v1 below, and `mitene_download.py`, called v2 below)
against its natural-language specification.

The embedding models, from the source:
- the v1 transfer executor `download_media` (cache lookup, frozen Range
  header, chunked streaming with 1 MiB checkpoints, retry loop with
  exponential backoff), over an explicit per-attempt server behaviour;
- the v2 transfer executor `download_media` (existence check on the
  destination path, content-type extension adjustment, retry loop that
  catches only payload errors and performs no wait);
- the page iterators of both variants (password challenge on page 1,
  marker extraction, empty-media-list termination);
- the bounded-concurrency scheduler `gather_with_concurrency` as a
  transition system over semaphore permits.
-/

/-- A per-URL record of the v1 sqlite cache as read by `get_cache_info`:
`(cache_filename, status, downloaded_size)`; `none` when the URL has no row. -/
def Cache := String → Option (String × String × Nat)

def emptyCache : Cache := fun _ => none

/-- `REPLACE INTO cache ...` of `update_cache`: last write wins for the key. -/
def cacheUpdate (c : Cache) (url fn st : String) (sz : Nat) : Cache :=
  fun u => if u = url then some (fn, st, sz) else c u

/-- Status column of `get_cache_info url` (`cache_info[1]`, `none` for a missing row). -/
def cacheStatus (c : Cache) (url : String) : Option String :=
  (c url).map fun r => r.2.1

/-- Size column of `get_cache_info url` (`cache_info[2]`, defaulting to `0`). -/
def cachedSize (c : Cache) (url : String) : Nat :=
  match c url with
  | some (_, _, n) => n
  | none => 0

/-- How one attempt of the v1 retry loop ends: clean end of stream, an
`aiohttp` error (caught by the `except` clause), or an `OSError` from a file
write (not caught). -/
inductive AttemptResult
  | success
  | netErr
  | ioErr
deriving DecidableEq

/-- Server/filesystem behaviour of one attempt: the sizes of the chunks
delivered by `r.content.read` before the attempt ends, and how it ends. -/
structure AttemptSpec where
  chunks : List Nat
  result : AttemptResult
deriving DecidableEq

/-- Observable steps of one v1 `download_media` call: an HTTP request with its
optional Range offset, an `update_cache` call, the error/retry/failure prints,
and the backoff sleep (recording its deterministic component `2 ^ attempt`). -/
inductive DlEvent
  | request (range : Option Nat)
  | cacheUpd (status : String) (size : Nat)
  | errLog
  | wait (det : Nat)
  | failLog
deriving DecidableEq

/-- The chunk loop of v1 `download_media`: accumulate chunk sizes, and each
time the accumulator reaches `update_interval = 1024 * 1024`, checkpoint
(`update_cache` with status `"partial"` and the new `downloaded_size`) and
reset the accumulator.  Returns the final accumulator, the final
`downloaded_size`, and the checkpoint events in order. -/
def chunkLoop : List Nat → Nat → Nat → Nat × Nat × List DlEvent
  | [], acc, dl => (acc, dl, [])
  | c :: cs, acc, dl =>
    let acc' := acc + c
    if 1048576 ≤ acc' then
      let r := chunkLoop cs 0 (dl + acc')
      (r.1, r.2.1, DlEvent.cacheUpd "partial" (dl + acc') :: r.2.2)
    else
      chunkLoop cs acc' dl

/-- Replay the `update_cache` calls of a list of events onto a cache. -/
def applyCacheEvents (url dest : String) : Cache → List DlEvent → Cache
  | cache, [] => cache
  | cache, DlEvent.cacheUpd st sz :: rest =>
      applyCacheEvents url dest (cacheUpdate cache url dest st sz) rest
  | cache, _ :: rest => applyCacheEvents url dest cache rest

/-- The retry loop `for attempt in range(max_retries)` of v1 `download_media`.

`hdr` is the Range header computed once, before the loop, from the cached
`downloaded_size` — the loop body never recomputes it.  `dl` is the local
`downloaded_size` variable, which the checkpoints do update across attempts.
`specs` supplies the behaviour of each successive attempt.  The file size is
threaded to model mode `"wb"` (truncate, when `dl = 0`) versus `"ab"`
(append).  An `ioErr` attempt models an uncaught `OSError` escaping the
function. -/
def downloadAttempts (url dest : String) (maxR : Nat) (hdr : Option Nat) :
    List AttemptSpec → Nat → Nat → Cache → Nat →
      Except Unit (List DlEvent × Cache × Nat)
  | [], _, _, cache, fsz => Except.ok ([], cache, fsz)
  | spec :: rest, attempt, dl, cache, fsz =>
    if maxR ≤ attempt then Except.ok ([], cache, fsz)
    else
      let fsz1 := if 0 < dl then fsz else 0
      let r := chunkLoop spec.chunks 0 dl
      let acc := r.1
      let dl' := r.2.1
      let cevs := r.2.2
      let cache' := applyCacheEvents url dest cache cevs
      let fsz2 := fsz1 + spec.chunks.sum
      match spec.result with
      | AttemptResult.ioErr => Except.error ()
      | AttemptResult.success =>
        if 0 < acc then
          Except.ok
            (DlEvent.request hdr :: cevs ++
              [DlEvent.cacheUpd "partial" (dl' + acc),
               DlEvent.cacheUpd "complete" (dl' + acc)],
             cacheUpdate (cacheUpdate cache' url dest "partial" (dl' + acc))
               url dest "complete" (dl' + acc),
             fsz2)
        else
          Except.ok
            (DlEvent.request hdr :: cevs ++ [DlEvent.cacheUpd "complete" dl'],
             cacheUpdate cache' url dest "complete" dl',
             fsz2)
      | AttemptResult.netErr =>
        if attempt < maxR - 1 then
          match downloadAttempts url dest maxR hdr rest (attempt + 1) dl' cache' fsz2 with
          | Except.error e => Except.error e
          | Except.ok (evs', c', f') =>
            Except.ok
              (DlEvent.request hdr :: cevs ++
                 (DlEvent.errLog :: DlEvent.wait (2 ^ attempt) :: evs'),
               c', f')
        else
          Except.ok
            (DlEvent.request hdr :: cevs ++ [DlEvent.errLog, DlEvent.failLog],
             cache', fsz2)

/-- v1 `download_media`: read the cache, short-circuit on status `"complete"`,
otherwise compute the Range header from the cached size once and run the retry
loop.  Returns the event trace, the final cache, and the final size of the
destination file. -/
def download_media_v1 (cache : Cache) (url dest : String) (maxR : Nat)
    (fsz : Nat) (attempts : List AttemptSpec) :
    Except Unit (List DlEvent × Cache × Nat) :=
  let dl0 := cachedSize cache url
  if cacheStatus cache url = some "complete" then Except.ok ([], cache, fsz)
  else
    let hdr := if 0 < dl0 then some dl0 else none
    downloadAttempts url dest maxR hdr attempts 0 dl0 cache fsz

/-- Event trace of a `download_media_v1` run, `none` if it escaped with an
uncaught exception. -/
def dmEvents (x : Except Unit (List DlEvent × Cache × Nat)) : Option (List DlEvent) :=
  match x with
  | Except.ok (e, _, _) => some e
  | Except.error _ => none

/-- Final cache row at a URL after a `download_media_v1` run (`none` if the
run escaped with an uncaught exception). -/
def dmCacheAt (x : Except Unit (List DlEvent × Cache × Nat)) (url : String) :
    Option (Option (String × String × Nat)) :=
  match x with
  | Except.ok (_, c, _) => some (c url)
  | Except.error _ => none

/-- Final cache status at a URL after a `download_media_v1` run. -/
def dmStatusAt (x : Except Unit (List DlEvent × Cache × Nat)) (url : String) :
    Option String :=
  match x with
  | Except.ok (_, c, _) => cacheStatus c url
  | Except.error _ => none

/-! ## The v2 transfer executor (`mitene_download.py` `download_media`) -/

/-- The local file store: destination path ↦ list of chunk sizes written.
A key is present exactly when `os.path.exists` is true for it. -/
abbrev FileStore := List (String × List Nat)

/-- `os.path.exists` / read of a file. -/
def fsLookup : FileStore → String → Option (List Nat)
  | [], _ => none
  | (n, c) :: rest, q => if n = q then some c else fsLookup rest q

/-- `open(name, "wb")` followed by writing `c`: create or truncate-and-replace. -/
def fsInsert : FileStore → String → List Nat → FileStore
  | [], n, c => [(n, c)]
  | (m, d) :: rest, n, c =>
    if m = n then (n, c) :: rest else (m, d) :: fsInsert rest n c

/-- `str.endswith(suffix)`. -/
def strEndsWith (s suffix : String) : Bool :=
  List.isSuffixOf suffix.data s.data

/-- The destination-filename adjustment of v2 `download_media`:
`mimetypes.guess_extension` result `ext`, appended unless the name already
ends with it. -/
def applyExt (dest : String) : Option String → String
  | none => dest
  | some e => if strEndsWith dest e then dest else dest ++ e

/-- How one v2 attempt ends: clean end of the chunk iterator, or an
`aiohttp.ClientPayloadError` after the listed chunks (the only exception the
`except` clause catches). -/
inductive V2Result
  | ok
  | payloadErr
deriving DecidableEq

structure V2Attempt where
  chunks : List Nat
  res : V2Result
deriving DecidableEq

/-- Observable steps of one v2 `download_media` call: the HTTP request, the
`handle_retry_attempt` prints, and the verbose already-downloaded print. -/
inductive V2Event
  | request
  | retryLog
  | failLog
  | skipLog
deriving DecidableEq

/-- The retry loop `for attempt in range(max_retries)` of v2 `download_media`.

Each iteration first checks `os.path.exists(destination_filename)`; if the
file exists it prints (when verbose) and breaks without any request.
Otherwise it issues the request, adjusts the destination name by the guessed
content-type extension (the adjusted name persists across attempts), opens the
file with mode `"wb"` and streams chunks into it; a `ClientPayloadError` after
some chunks leaves the partly-written file in place and moves to the next
attempt with no wait in between. -/
def dmV2Go (guessedExt : Option String) (maxR : Nat) :
    List V2Attempt → Nat → String → FileStore → List V2Event × FileStore
  | [], _, _, fs => ([], fs)
  | spec :: rest, attempt, dest, fs =>
    if maxR ≤ attempt then ([], fs)
    else
      match fsLookup fs dest with
      | some _ => ([V2Event.skipLog], fs)
      | none =>
        let dest' := applyExt dest guessedExt
        let fs' := fsInsert fs dest' spec.chunks
        match spec.res with
        | V2Result.ok => ([V2Event.request], fs')
        | V2Result.payloadErr =>
          if attempt < maxR - 1 then
            let r := dmV2Go guessedExt maxR rest (attempt + 1) dest' fs'
            (V2Event.request :: V2Event.retryLog :: r.1, r.2)
          else
            ([V2Event.request, V2Event.failLog], fs')

/-- v2 `download_media` (`max_retries` defaults to 3 in the source). -/
def download_media_v2 (guessedExt : Option String) (maxR : Nat)
    (attempts : List V2Attempt) (dest : String) (fs : FileStore) :
    List V2Event × FileStore :=
  dmV2Go guessedExt maxR attempts 0 dest fs

/-- Number of HTTP requests in a v2 event trace. -/
def v2Requests (evs : List V2Event) : Nat :=
  evs.countP fun e => e = V2Event.request

/-! ## Manifest fetching (page iteration and the password challenge) -/

/-- A media entry of a page's `gon.media` payload, restricted to the fields
the control flow reads. -/
structure Media where
  uuid : String
  tookAt : String
  expiringUrl : String
  expiringVideoUrl : Option String
deriving DecidableEq

/-- A concrete media entry used by the witness instantiations. -/
def sampleMedia : Media :=
  { uuid := "m1", tookAt := "t", expiringUrl := "e", expiringVideoUrl := none }

/-- What a page GET returns: the password challenge body (containing
`"Please enter your password"` and the hidden `authenticity_token` field), or
a body whose markers delimit a payload with the given `mediaFiles` list. -/
inductive PageView
  | challenge
  | content (media : List Media)
deriving DecidableEq

/-- HTTP requests of a run: page GETs, the login POST, asset download GETs. -/
inductive RunEvent
  | pageReq (n : Nat)
  | loginReq
  | dlReq (u : String)
deriving DecidableEq

/-- Terminal state of the v2 manifest loop: normal termination on an empty
media list, `sys.exit(1)` for a missing or rejected password, the uncaught
`IndexError` when the payload markers are absent, or fuel exhaustion (the
loop still running — a model artifact standing for nontermination). -/
inductive FetchOutcome
  | ok
  | authRequired
  | authFailed
  | markerError
  | outOfFuel
deriving DecidableEq

/-- The `while True` page loop of v2 `async_main`.

`view authed n` is the body served for `GET {album}?page={n}` before/after a
successful login; `loginOk` says whether the login POST's final URL path ends
in `/login` (False ↔ it does).  On page 1 with a challenge body: exit if no
password; otherwise POST the login, exit on failure, and `continue` with the
same page number on success.  Otherwise extract the payload (a challenge body
on a later page has no markers), increment the page counter, and stop as soon
as `mediaFiles` is empty. -/
def v2Fetch (view : Bool → Nat → PageView) (loginOk : Bool)
    (password : Option String) :
    Nat → Nat → Bool → List RunEvent × List (List Media) × FetchOutcome
  | 0, _, _ => ([], [], FetchOutcome.outOfFuel)
  | fuel + 1, page, authed =>
    match view authed page with
    | PageView.challenge =>
      if page = 1 then
        if password = none then
          ([RunEvent.pageReq page], [], FetchOutcome.authRequired)
        else
          if loginOk then
            let r := v2Fetch view loginOk password fuel page true
            (RunEvent.pageReq page :: RunEvent.loginReq :: r.1, r.2)
          else
            ([RunEvent.pageReq page, RunEvent.loginReq], [], FetchOutcome.authFailed)
      else
        ([RunEvent.pageReq page], [], FetchOutcome.markerError)
    | PageView.content media =>
      if media = [] then
        ([RunEvent.pageReq page], [], FetchOutcome.ok)
      else
        let r := v2Fetch view loginOk password fuel (page + 1) authed
        (RunEvent.pageReq page :: r.1, media :: r.2.1, r.2.2)

/-- State of the v1 `AsyncPageIterator`: `page` and `last_page`. -/
structure V1St where
  page : Nat
  lastPage : Bool
deriving DecidableEq

/-- Result of one v1 `__anext__` call: `StopAsyncIteration`, an uncaught
exception, or a yielded payload with the successor iterator state. -/
inductive V1Step
  | stop
  | err
  | yield (media : List Media) (st : V1St)
deriving DecidableEq

/-- One `__anext__` call of the v1 `AsyncPageIterator`.

If `last_page` is set: stop, no request.  Otherwise GET the next page.  On a
page-1 challenge body: stop when no password is given; when a password is
given, POST the login and then fall through to the marker split on the very
response that was already fetched — the challenge body, which has no markers,
so the split raises `IndexError` (`err`); the login response is never
examined and the page is never re-requested.  On a content body, yield the
payload, setting `last_page` when `mediaFiles` is empty. -/
def v1anext (view : Nat → PageView) (password : Option String) (st : V1St) :
    List RunEvent × V1Step :=
  if st.lastPage then ([], V1Step.stop)
  else
    let page := st.page + 1
    match view page with
    | PageView.challenge =>
      if page = 1 then
        match password with
        | none => ([RunEvent.pageReq page], V1Step.stop)
        | some _ => ([RunEvent.pageReq page, RunEvent.loginReq], V1Step.err)
      else
        ([RunEvent.pageReq page], V1Step.err)
    | PageView.content media =>
      ([RunEvent.pageReq page], V1Step.yield media ⟨page, media.isEmpty⟩)

/-- The `async for` loop of v1 `async_main` driving the iterator: collected
page payloads, the requests issued, and whether the loop ended in an uncaught
exception. -/
def v1iterate (view : Nat → PageView) (password : Option String) :
    Nat → V1St → List RunEvent × List (List Media) × Bool
  | 0, _ => ([], [], false)
  | fuel + 1, st =>
    match v1anext view password st with
    | (evs, V1Step.stop) => (evs, [], false)
    | (evs, V1Step.err) => (evs, [], true)
    | (evs, V1Step.yield m st') =>
      let r := v1iterate view password fuel st'
      (evs ++ r.1, m :: r.2.1, r.2.2)

/-- Asset download URL `{album}/media_files/{uuid}/download`. -/
def mediaUrl (album : String) (m : Media) : String :=
  album ++ "/media_files/" ++ m.uuid ++ "/download"

/-- The per-media filter of v1 `async_main`: skip a media entry whose cache
row has status `"complete"`, otherwise queue its download URL. -/
def v1CollectDownloads (album : String) (pages : List (List Media))
    (cache : Cache) : List String :=
  pages.flatten.filterMap fun m =>
    if cacheStatus cache (mediaUrl album m) = some "complete" then none
    else some (mediaUrl album m)

/-- Download URLs queued by v2 `async_main` (no cache: every entry is queued). -/
def v2DlUrls (album : String) (pages : List (List Media)) : List String :=
  pages.flatten.map (mediaUrl album)

/-- The download phase of a v2 run: `gather_with_concurrency` issues the
accumulated download requests only when the page loop terminated normally
(`sys.exit` or an uncaught exception happens before the gather). -/
def v2DlPhase (album : String) (pages : List (List Media)) :
    FetchOutcome → List RunEvent
  | FetchOutcome.ok => (v2DlUrls album pages).map RunEvent.dlReq
  | _ => []

/-- Request trace of a whole v2 run: the page loop's requests, then the
download phase. -/
def v2RunTrace (album : String) (view : Bool → Nat → PageView) (loginOk : Bool)
    (password : Option String) (fuel : Nat) : List RunEvent :=
  let r := v2Fetch view loginOk password fuel 1 false
  r.1 ++ v2DlPhase album r.2.1 r.2.2

/-- The download phase of a v1 run: nothing when the loop raised, otherwise
the requests of the gathered coroutines that passed the cache filter. -/
def v1DlPhase (album : String) (pages : List (List Media)) (cache : Cache)
    (errored : Bool) : List RunEvent :=
  if errored then []
  else (v1CollectDownloads album pages cache).map RunEvent.dlReq

/-- Request trace of a whole v1 run: the iterator's requests, then the
download phase. -/
def v1RunTrace (album : String) (view : Nat → PageView)
    (password : Option String) (cache : Cache) (fuel : Nat) : List RunEvent :=
  let r := v1iterate view password fuel ⟨0, false⟩
  r.1 ++ v1DlPhase album r.2.1 cache r.2.2

/-- The end-of-run print of v1 `async_main`: `"No new downloads found. All
files are up to date."` when no coroutine was queued, else the all-completed
message; `none` when the loop raised. -/
inductive V1Report
  | noNewDownloads
  | completed
deriving DecidableEq

def v1Report (album : String) (view : Nat → PageView)
    (password : Option String) (cache : Cache) (fuel : Nat) : Option V1Report :=
  let r := v1iterate view password fuel ⟨0, false⟩
  if r.2.2 then none
  else if v1CollectDownloads album r.2.1 cache = [] then some V1Report.noNewDownloads
  else some V1Report.completed

/-! ## The bounded-concurrency scheduler (`gather_with_concurrency`) -/

/-- State of `gather_with_concurrency n`: tasks not yet started, tasks whose
`sem_task` holds the semaphore (in flight), and free semaphore permits. -/
structure SemState where
  pending : Nat
  active : Nat
  permits : Nat
deriving DecidableEq

/-- One scheduling step: a `sem_task` passes `async with semaphore` — which
requires a free permit — and its task becomes active, or an active task
finishes and its `sem_task` releases the permit. -/
inductive SemStep : SemState → SemState → Prop
  | start (p a q : Nat) : SemStep ⟨p + 1, a, q + 1⟩ ⟨p, a + 1, q⟩
  | finish (p a q : Nat) : SemStep ⟨p, a + 1, q⟩ ⟨p, a, q + 1⟩

/-- Initial state: `asyncio.Semaphore(n)` fresh, all tasks pending. -/
def semInit (n tasks : Nat) : SemState := ⟨tasks, 0, n⟩

/-- States reachable under some interleaving of the `sem_task`s. -/
def SemReachable (n tasks : Nat) (s : SemState) : Prop :=
  Relation.ReflTransGen SemStep (semInit n tasks) s

/-- `asyncio.gather` with no `return_exceptions`: the awaiting coroutine
resumes with the first exception instead of the result list. -/
def runGather : List (Except Unit Unit) → Except Unit (List Unit)
  | [] => Except.ok []
  | r :: rest =>
    match r with
    | Except.error e => Except.error e
    | Except.ok v => (runGather rest).map (v :: ·)

/-- Forget a task's value, keeping only success/exception. -/
def taskOutcome (x : Except Unit (List DlEvent × Cache × Nat)) : Except Unit Unit :=
  x.map fun _ => ()

/-! ## Event projections used by the statements -/

def isRequestEv : DlEvent → Bool
  | DlEvent.request _ => true
  | _ => false

def waitDetOf : DlEvent → Option Nat
  | DlEvent.wait d => some d
  | _ => none

/-- Range offsets of the requests of a v1 trace, in order. -/
def requestRanges (evs : List DlEvent) : List (Option Nat) :=
  evs.filterMap fun e =>
    match e with
    | DlEvent.request r => some r
    | _ => none

/-! ## Helper lemmas -/

/-- Every event the chunk loop emits is a `"partial"` checkpoint. -/
theorem chunkLoop_events (cs : List Nat) : ∀ (acc dl : Nat),
    ∀ e ∈ (chunkLoop cs acc dl).2.2, ∃ sz, e = DlEvent.cacheUpd "partial" sz := by
  induction cs with
  | nil => intro acc dl e he; simp [chunkLoop] at he
  | cons c cs ih =>
    intro acc dl e he
    simp only [chunkLoop] at he
    by_cases h : 1048576 ≤ acc + c
    · rw [if_pos h] at he
      dsimp only at he
      rcases List.mem_cons.mp he with he | he
      · exact ⟨_, he⟩
      · exact ih _ _ e he
    · rw [if_neg h] at he
      exact ih _ _ e he

/-- The chunk loop's checkpointed size plus its accumulator grows by the sum
of the chunks. -/
theorem chunkLoop_sum (cs : List Nat) : ∀ (acc dl : Nat),
    (chunkLoop cs acc dl).2.1 + (chunkLoop cs acc dl).1 = dl + acc + cs.sum := by
  induction cs with
  | nil => intro acc dl; simp [chunkLoop]
  | cons c cs ih =>
    intro acc dl
    simp only [chunkLoop, List.sum_cons]
    by_cases h : 1048576 ≤ acc + c
    · rw [if_pos h]
      dsimp only
      have := ih 0 (dl + (acc + c))
      omega
    · rw [if_neg h]
      have := ih (acc + c) dl
      omega

/-- No chunk-loop event is a request. -/
theorem chunkLoop_countP_req (cs : List Nat) (acc dl : Nat) :
    ((chunkLoop cs acc dl).2.2).countP isRequestEv = 0 :=
  List.countP_eq_zero.mpr fun e he => by
    obtain ⟨sz, rfl⟩ := chunkLoop_events cs acc dl e he
    simp [isRequestEv]

/-- No chunk-loop event is a wait. -/
theorem chunkLoop_filterMap_wait (cs : List Nat) (acc dl : Nat) :
    ((chunkLoop cs acc dl).2.2).filterMap waitDetOf = [] :=
  List.filterMap_eq_nil_iff.mpr fun e he => by
    obtain ⟨sz, rfl⟩ := chunkLoop_events cs acc dl e he
    rfl

theorem getLast?_cons_append {α : Type} (a : α) (l m : List α) (b : α)
    (h : m.getLast? = some b) : (a :: (l ++ m)).getLast? = some b := by
  have h2 : a :: (l ++ m) = (a :: l) ++ m := rfl
  rw [h2, List.getLast?_append, h]
  rfl

/-- The v1 retry loop under transient network failure on every attempt:
it returns normally, issues exactly one request per configured attempt,
sleeps the deterministic backoff component `2 ^ attempt` between consecutive
attempts, writes only `"partial"` cache checkpoints (never `"failed"`), and
its last print is the max-retries failure message. -/
theorem downloadAttempts_netErr (url dest : String) (maxR : Nat) (hdr : Option Nat)
    (specs : List AttemptSpec) :
    ∀ (attempt dl : Nat) (cache : Cache) (fsz : Nat),
      specs ≠ [] →
      (∀ s ∈ specs, s.result = AttemptResult.netErr) →
      attempt + specs.length = maxR →
      ∃ evs c' f',
        downloadAttempts url dest maxR hdr specs attempt dl cache fsz =
          Except.ok (evs, c', f') ∧
        evs.countP isRequestEv = specs.length ∧
        evs.filterMap waitDetOf =
          (List.range' attempt (specs.length - 1)).map (2 ^ ·) ∧
        (∀ st sz, DlEvent.cacheUpd st sz ∈ evs → st = "partial") ∧
        evs.getLast? = some DlEvent.failLog := by
  induction specs with
  | nil => intro _ _ _ _ h; exact absurd rfl h
  | cons s rest ih =>
    intro attempt dl cache fsz _ hall hlen
    obtain ⟨chunks, res⟩ := s
    have hres : res = AttemptResult.netErr := hall _ (List.mem_cons_self _ _)
    subst hres
    have hlt : attempt < maxR := by
      simp only [List.length_cons] at hlen; omega
    rcases rest with _ | ⟨r, rest'⟩
    · -- last attempt: `attempt = maxR - 1`, the loop breaks with the fail log
      have hnlt : ¬ attempt < maxR - 1 := by
        simp only [List.length_cons, List.length_nil] at hlen; omega
      have heq : downloadAttempts url dest maxR hdr
          [⟨chunks, AttemptResult.netErr⟩] attempt dl cache fsz =
          Except.ok (DlEvent.request hdr :: (chunkLoop chunks 0 dl).2.2 ++
              [DlEvent.errLog, DlEvent.failLog],
            applyCacheEvents url dest cache (chunkLoop chunks 0 dl).2.2,
            (if 0 < dl then fsz else 0) + chunks.sum) := by
        rw [downloadAttempts]
        rw [if_neg (by omega : ¬ maxR ≤ attempt)]
        dsimp only
        rw [if_neg hnlt]
      refine ⟨_, _, _, heq, ?_, ?_, ?_, ?_⟩
      · simp [List.countP_cons, chunkLoop_countP_req, isRequestEv]
      · simp [List.filterMap_cons, chunkLoop_filterMap_wait, waitDetOf]
      · intro st sz hmem
        rcases List.mem_cons.mp hmem with h | h
        · cases h
        · rcases List.mem_append.mp h with h | h
          · obtain ⟨sz2, he⟩ := chunkLoop_events chunks 0 dl _ h
            cases he; rfl
          · rcases List.mem_cons.mp h with h | h
            · cases h
            · rcases List.mem_cons.mp h with h | h
              · cases h
              · cases h
      · exact getLast?_cons_append _ _ _ _ (by rfl)
    · -- a later attempt exists: sleep `2 ^ attempt` and re-enter the loop
      have hlt1 : attempt < maxR - 1 := by
        simp only [List.length_cons] at hlen; omega
      obtain ⟨evs', c', f', heq', hcount, hwaits, hpart, hlast⟩ :=
        ih (attempt + 1) (chunkLoop chunks 0 dl).2.1
          (applyCacheEvents url dest cache (chunkLoop chunks 0 dl).2.2)
          ((if 0 < dl then fsz else 0) + chunks.sum)
          (by simp) (fun s hs => hall s (List.mem_cons_of_mem _ hs))
          (by simp only [List.length_cons] at hlen ⊢; omega)
      have heq : downloadAttempts url dest maxR hdr
          (⟨chunks, AttemptResult.netErr⟩ :: r :: rest') attempt dl cache fsz =
          Except.ok (DlEvent.request hdr :: (chunkLoop chunks 0 dl).2.2 ++
              (DlEvent.errLog :: DlEvent.wait (2 ^ attempt) :: evs'),
            c', f') := by
        rw [downloadAttempts]
        rw [if_neg (by omega : ¬ maxR ≤ attempt)]
        dsimp only
        rw [if_pos hlt1, heq']
      refine ⟨_, _, _, heq, ?_, ?_, ?_, ?_⟩
      · simp only [List.countP_cons, List.countP_append,
          chunkLoop_countP_req, List.length_cons, hcount]
        simp [isRequestEv]
        omega
      · simp only [List.filterMap_cons, List.filterMap_append,
          chunkLoop_filterMap_wait, waitDetOf, List.nil_append,
          List.length_cons, hwaits]
        rw [show rest'.length + 1 + 1 - 1 = rest'.length + 1 from rfl,
          List.range'_succ]
        simp
      · intro st sz hmem
        rcases List.mem_cons.mp hmem with h | h
        · cases h
        · rcases List.mem_append.mp h with h | h
          · obtain ⟨sz2, he⟩ := chunkLoop_events chunks 0 dl _ h
            cases he; rfl
          · rcases List.mem_cons.mp h with h | h
            · cases h
            · rcases List.mem_cons.mp h with h | h
              · cases h
              · exact hpart st sz h
      · refine getLast?_cons_append _ _ _ _ ?_
        have h3 : DlEvent.errLog :: DlEvent.wait (2 ^ attempt) :: evs' =
            [DlEvent.errLog, DlEvent.wait (2 ^ attempt)] ++ evs' := rfl
        rw [h3, List.getLast?_append, hlast]
        rfl

/-- A fresh `"wb"` write is what a later `os.path.exists` check sees. -/
theorem fsLookup_fsInsert_self (fs : FileStore) (n : String) (c : List Nat) :
    fsLookup (fsInsert fs n c) n = some c := by
  induction fs with
  | nil => simp [fsInsert, fsLookup]
  | cons p rest ih =>
    obtain ⟨m, d⟩ := p
    by_cases h : m = n
    · subst h; simp [fsInsert, fsLookup]
    · simp [fsInsert, fsLookup, h, ih]

/-- `download_media` (v1) on a URL that is not cached `"complete"`, with a
transient network failure on every configured attempt. -/
theorem download_media_v1_netErr (cache : Cache) (url dest : String)
    (maxR fsz : Nat) (specs : List AttemptSpec)
    (hnc : cacheStatus cache url ≠ some "complete")
    (hne : specs ≠ [])
    (hall : ∀ s ∈ specs, s.result = AttemptResult.netErr)
    (hlen : specs.length = maxR) :
    ∃ evs c' f',
      download_media_v1 cache url dest maxR fsz specs = Except.ok (evs, c', f') ∧
      evs.countP isRequestEv = maxR ∧
      evs.filterMap waitDetOf = (List.range' 0 (maxR - 1)).map (2 ^ ·) ∧
      (∀ st sz, DlEvent.cacheUpd st sz ∈ evs → st = "partial") ∧
      evs.getLast? = some DlEvent.failLog := by
  obtain ⟨evs, c', f', heq, hcount, hwaits, hpart, hlast⟩ :=
    downloadAttempts_netErr url dest maxR
      (if 0 < cachedSize cache url then some (cachedSize cache url) else none)
      specs 0 (cachedSize cache url) cache fsz hne hall (by omega)
  refine ⟨evs, c', f', ?_, hlen ▸ hcount, ?_, hpart, hlast⟩
  · unfold download_media_v1
    rw [if_neg hnc]
    exact heq
  · rw [hwaits, hlen]

/-- `download_media` (v1) on a URL that is not cached `"complete"`, with a
single cleanly-finishing attempt: the run ends with the URL's cache row
marked `"complete"` at the full size. -/
theorem download_media_v1_single_success (cache : Cache) (url dest : String)
    (maxR fsz : Nat) (chunks : List Nat)
    (hnc : cacheStatus cache url ≠ some "complete")
    (hm : 0 < maxR) :
    ∃ evs c' f',
      download_media_v1 cache url dest maxR fsz
          [⟨chunks, AttemptResult.success⟩] = Except.ok (evs, c', f') ∧
      c' url = some (dest, "complete", cachedSize cache url + chunks.sum) := by
  unfold download_media_v1
  rw [if_neg hnc]
  rw [downloadAttempts]
  rw [if_neg (by omega : ¬ maxR ≤ 0)]
  dsimp only
  have hs := chunkLoop_sum chunks 0 (cachedSize cache url)
  by_cases hacc : 0 < (chunkLoop chunks 0 (cachedSize cache url)).1
  · rw [if_pos hacc]
    refine ⟨_, _, _, rfl, ?_⟩
    have h2 : (chunkLoop chunks 0 (cachedSize cache url)).2.1 +
        (chunkLoop chunks 0 (cachedSize cache url)).1 =
        cachedSize cache url + chunks.sum := by omega
    simp [cacheUpdate, h2]
  · rw [if_neg hacc]
    refine ⟨_, _, _, rfl, ?_⟩
    have h2 : (chunkLoop chunks 0 (cachedSize cache url)).2.1 =
        cachedSize cache url + chunks.sum := by omega
    simp [cacheUpdate, h2]

/-! ## Claim theorems: concrete evaluations -/

/-- **C1** (code bug): the claim says every retry re-issue starts at the
currently checkpointed `downloadedBytes`.  In v1 `download_media` the Range
header is computed once, before the retry loop, and never refreshed: with an
empty cache, `max_retries = 2`, and a first attempt that reads 1 MiB (one
checkpoint at `downloadedBytes = 1048576`, durably recorded) before a
transient error, the retry re-issues the request with *no* Range header
(offset 0) — re-requesting the 1048576 bytes already counted — while the file
is opened in append mode.  The trace below shows the checkpoint at 1048576
followed by a second `request none`. -/
theorem c1_retry_reuses_stale_range_header :
    dmEvents (download_media_v1 emptyCache "u" "d" 2 0
        [⟨[1048576], AttemptResult.netErr⟩, ⟨[], AttemptResult.netErr⟩]) =
      some [DlEvent.request none, DlEvent.cacheUpd "partial" 1048576,
        DlEvent.errLog, DlEvent.wait 1, DlEvent.request none,
        DlEvent.errLog, DlEvent.failLog] ∧
    dmCacheAt (download_media_v1 emptyCache "u" "d" 2 0
        [⟨[1048576], AttemptResult.netErr⟩, ⟨[], AttemptResult.netErr⟩]) "u" =
      some (some ("d", "partial", 1048576)) := by
  exact ⟨by decide, by decide⟩

/-- **C5** (code bug): the claim says the fetcher, given a credential, posts
it and on success re-requests the page, extracting the payload from the
re-fetched response, and terminates with an auth-failed signal when the login
lands back on `/login`.  The v2 loop does this, but the v1
`AsyncPageIterator.__anext__`, on a page-1 challenge with a password, posts
the login and then runs the marker split on the challenge body it already
holds: the trace is exactly `[GET page 1, POST login]` — no re-request — and
the step ends in the uncaught `IndexError` (`V1Step.err`); the login
response's URL is never examined. -/
theorem c5_v1_parses_challenge_body :
    v1anext (fun n => if n = 1 then PageView.challenge else PageView.content [])
        (some "secret") ⟨0, false⟩ =
      ([RunEvent.pageReq 1, RunEvent.loginReq], V1Step.err) := by decide

/-- **C2** (counterexample): one v2 asset whose URL path ends in `.jpeg`
while the response `Content-Type` guesses `.jpg`.  The first run fully writes
the destination file — under the adjusted name `t.jpeg.jpg` — yet the second
run, whose existence check uses the pre-adjustment name `t.jpeg`, issues one
more download request instead of the zero the claim requires. -/
theorem c2_second_run_redownloads_extension_case :
    fsLookup (download_media_v2 (some ".jpg") 3 [⟨[7], V2Result.ok⟩]
        "t.jpeg" []).2 "t.jpeg.jpg" = some [7] ∧
    v2Requests (download_media_v2 (some ".jpg") 3 [⟨[7], V2Result.ok⟩] "t.jpeg"
        (download_media_v2 (some ".jpg") 3 [⟨[7], V2Result.ok⟩] "t.jpeg" []).2).1
      = 1 := by
  exact ⟨by decide, by decide⟩

/-- **C3** (counterexample): an asset that fails transiently on both of its
`max_retries = 2` attempts, having checkpointed 2 MiB.  After the last
attempt the cache row's status is `"partial"`, not the `"failed"` the claim
requires — v1 `download_media` never writes a `"failed"` status. -/
theorem c3_no_failed_status_after_exhaustion :
    dmStatusAt (download_media_v1 emptyCache "u3" "d3" 2 0
        [⟨[2097152], AttemptResult.netErr⟩, ⟨[], AttemptResult.netErr⟩]) "u3" =
      some "partial" ∧
    dmStatusAt (download_media_v1 emptyCache "u3" "d3" 2 0
        [⟨[2097152], AttemptResult.netErr⟩, ⟨[], AttemptResult.netErr⟩]) "u3" ≠
      some "failed" := by
  exact ⟨by decide, by decide⟩

/-- **C4** (counterexample): the v2 executor (`mitene_download.py`,
`max_retries = 3`) with transient payload errors on every attempt.  The
mid-body failure of attempt 1 leaves the partly-written destination file on
disk, so attempt 2's `os.path.exists` check skips the download and breaks:
one request is issued in total, not the configured three, and no backoff wait
separates the attempts (the v2 loop has no sleep at all). -/
theorem c4_mitene_retry_without_backoff :
    v2Requests (download_media_v2 none 3
        [⟨[5], V2Result.payloadErr⟩, ⟨[], V2Result.payloadErr⟩,
         ⟨[], V2Result.payloadErr⟩] "d4.mp4" []).1 = 1 ∧
    v2Requests (download_media_v2 none 3
        [⟨[5], V2Result.payloadErr⟩, ⟨[], V2Result.payloadErr⟩,
         ⟨[], V2Result.payloadErr⟩] "d4.mp4" []).1 ≠ 3 := by
  exact ⟨by decide, by decide⟩

/-- **C6** (counterexample): a password-gated album with no credential makes
the v1 iterator stop silently; `async_main` then prints the same
`"No new downloads found. All files are up to date."` report as a perfectly
ordinary up-to-date run — no authentication-required condition is reported to
the caller at all, let alone distinctly. -/
theorem c6_v1_auth_required_not_distinct :
    v1Report "a" (fun n => if n = 1 then PageView.challenge else PageView.content [])
        none emptyCache 3 = some V1Report.noNewDownloads ∧
    v1Report "a" (fun _ => PageView.content []) none emptyCache 3 =
      some V1Report.noNewDownloads ∧
    v1RunTrace "a" (fun n => if n = 1 then PageView.challenge else PageView.content [])
        none emptyCache 3 = [RunEvent.pageReq 1] := by
  exact ⟨by decide, by decide, by decide⟩

/-- **C8** (counterexample): asset A hits an uncaught `OSError` on a file
write; `download_media` escapes with the exception, and the plain
`asyncio.gather` awaiting the three tasks resumes `async_main` with that
exception — the run aborts instead of isolating the failure to A as the claim
requires. -/
theorem c8_write_error_aborts_gather :
    taskOutcome (download_media_v1 emptyCache "a8" "fa" 4 0
        [⟨[], AttemptResult.ioErr⟩]) = Except.error () ∧
    runGather
        [taskOutcome (download_media_v1 emptyCache "a8" "fa" 4 0
          [⟨[], AttemptResult.ioErr⟩]),
         taskOutcome (download_media_v1 emptyCache "b8" "fb" 4 0
          [⟨[6], AttemptResult.success⟩]),
         taskOutcome (download_media_v1 emptyCache "c8x" "fc" 4 0
          [⟨[6], AttemptResult.success⟩])] = Except.error () := by
  exact ⟨by rfl, by rfl⟩

/-! ## Claim theorems: amended statements -/

/-- **C2** (amended): skipping of finished work holds exactly at the names
the code checks.  In v1, a manifest all of whose asset URLs are cached
`"complete"` queues no download, and `download_media` short-circuits on a
`"complete"` row without any request, cache write, or file write.  In v2 the
skip is keyed by the pre-extension destination name: when a file exists under
that name, `download_media` issues no request and leaves the file store
byte-for-byte unchanged (the counterexample shows the claim fails when the
first run stored the file under an extension-adjusted name). -/
theorem c2_amended_complete_entries_skip :
    (∀ (album : String) (pages : List (List Media)) (cache : Cache),
      (∀ m ∈ pages.flatten,
        cacheStatus cache (mediaUrl album m) = some "complete") →
      v1CollectDownloads album pages cache = []) ∧
    (∀ (cache : Cache) (url dest : String) (maxR fsz : Nat)
       (attempts : List AttemptSpec),
      cacheStatus cache url = some "complete" →
      download_media_v1 cache url dest maxR fsz attempts =
        Except.ok ([], cache, fsz)) ∧
    (∀ (guessedExt : Option String) (maxR : Nat) (attempts : List V2Attempt)
       (dest : String) (fs : FileStore),
      fsLookup fs dest ≠ none →
      (download_media_v2 guessedExt maxR attempts dest fs).2 = fs ∧
      v2Requests (download_media_v2 guessedExt maxR attempts dest fs).1 = 0) := by
  refine ⟨?_, ?_, ?_⟩
  · intro album pages cache h
    unfold v1CollectDownloads
    rw [List.filterMap_eq_nil_iff]
    intro m hm
    rw [if_pos (h m hm)]
  · intro cache url dest maxR fsz attempts h
    unfold download_media_v1
    rw [if_pos h]
  · intro guessedExt maxR attempts dest fs h
    obtain ⟨c, hc⟩ : ∃ c, fsLookup fs dest = some c := by
      cases hfs : fsLookup fs dest with
      | none => exact absurd hfs h
      | some c => exact ⟨c, rfl⟩
    cases attempts with
    | nil => exact ⟨rfl, rfl⟩
    | cons spec rest =>
      unfold download_media_v2
      rw [dmV2Go]
      by_cases hg : maxR ≤ 0
      · rw [if_pos hg]
        exact ⟨rfl, rfl⟩
      · rw [if_neg hg, hc]
        exact ⟨rfl, rfl⟩

/-- Witness for `c2_amended_complete_entries_skip` at concrete inputs:
a one-page manifest whose only asset is cached `"complete"`, a
`download_media` call on a `"complete"` row, and a v2 call on an existing
destination file. -/
theorem c2_amended_complete_entries_skip_witness :
    v1CollectDownloads "a" [[sampleMedia]]
      (cacheUpdate emptyCache "a/media_files/m1/download" "f" "complete" 9)
      = [] ∧
    download_media_v1
      (cacheUpdate emptyCache "u2" "f2" "complete" 9) "u2" "f2" 4 7
      [⟨[5], AttemptResult.netErr⟩] =
      Except.ok ([], cacheUpdate emptyCache "u2" "f2" "complete" 9, 7) ∧
    ((download_media_v2 none 3 [⟨[5], V2Result.ok⟩] "dw2" [("dw2", [9])]).2 =
        [("dw2", [9])] ∧
      v2Requests (download_media_v2 none 3 [⟨[5], V2Result.ok⟩] "dw2"
        [("dw2", [9])]).1 = 0) :=
  ⟨c2_amended_complete_entries_skip.1 "a" [[sampleMedia]] _
      (by intro m hm; simp at hm; subst hm; decide),
   c2_amended_complete_entries_skip.2.1 _ "u2" "f2" 4 7
      [⟨[5], AttemptResult.netErr⟩] (by decide),
   c2_amended_complete_entries_skip.2.2 none 3 [⟨[5], V2Result.ok⟩] "dw2"
      [("dw2", [9])] (by decide)⟩

/-- **C3** (amended): when every attempt fails with a transient network
error, the executor logs the terminating max-retries message, returns
normally to the scheduler (no exception), and leaves the cache row at its
last checkpoint: every cache write of the run has status `"partial"` — no
`"failed"` status is ever written. -/
theorem c3_amended_exhaustion_returns_normally
    (cache : Cache) (url dest : String) (maxR fsz : Nat)
    (specs : List AttemptSpec)
    (hnc : cacheStatus cache url ≠ some "complete")
    (hne : specs ≠ [])
    (hall : ∀ s ∈ specs, s.result = AttemptResult.netErr)
    (hlen : specs.length = maxR) :
    ∃ evs c' f',
      download_media_v1 cache url dest maxR fsz specs = Except.ok (evs, c', f') ∧
      evs.getLast? = some DlEvent.failLog ∧
      (∀ st sz, DlEvent.cacheUpd st sz ∈ evs → st = "partial") := by
  obtain ⟨evs, c', f', heq, _, _, hpart, hlast⟩ :=
    download_media_v1_netErr cache url dest maxR fsz specs hnc hne hall hlen
  exact ⟨evs, c', f', heq, hlast, hpart⟩

/-- Witness for `c3_amended_exhaustion_returns_normally`: two attempts, both
failing transiently, on an uncached URL. -/
theorem c3_amended_exhaustion_returns_normally_witness :
    ∃ evs c' f',
      download_media_v1 emptyCache "uw3" "dw3" 2 0
          [⟨[], AttemptResult.netErr⟩, ⟨[], AttemptResult.netErr⟩] =
        Except.ok (evs, c', f') ∧
      evs.getLast? = some DlEvent.failLog ∧
      (∀ st sz, DlEvent.cacheUpd st sz ∈ evs → st = "partial") :=
  c3_amended_exhaustion_returns_normally emptyCache "uw3" "dw3" 2 0
    [⟨[], AttemptResult.netErr⟩, ⟨[], AttemptResult.netErr⟩]
    (by decide) (by decide) (by decide) (by decide)

/-- **C4** (amended): in the v1 executor (`downloader.py`), when every
attempt fails transiently, exactly `max_retries` requests are issued and the
waits between consecutive attempts have deterministic components
`2 ^ 0, 2 ^ 1, …` (the jitter `random.uniform(0, 1)` is additive on top),
which are non-decreasing.  In the v2 executor (`mitene_download.py`) there is
no wait at all, and a transient mid-body failure leaves the destination file
in place, so the next attempt issues no request and breaks: a single request
in total. -/
theorem c4_amended_backoff :
    (∀ (cache : Cache) (url dest : String) (maxR fsz : Nat)
       (specs : List AttemptSpec),
      cacheStatus cache url ≠ some "complete" →
      specs ≠ [] →
      (∀ s ∈ specs, s.result = AttemptResult.netErr) →
      specs.length = maxR →
      ∃ evs c' f',
        download_media_v1 cache url dest maxR fsz specs =
          Except.ok (evs, c', f') ∧
        evs.countP isRequestEv = maxR ∧
        evs.filterMap waitDetOf = (List.range' 0 (maxR - 1)).map (2 ^ ·) ∧
        (evs.filterMap waitDetOf).Pairwise (· ≤ ·)) ∧
    (∀ (guessedExt : Option String) (maxR : Nat) (chunks : List Nat)
       (r : V2Attempt) (rest : List V2Attempt) (dest : String) (fs : FileStore),
      fsLookup fs dest = none →
      1 < maxR →
      download_media_v2 guessedExt maxR
          (⟨chunks, V2Result.payloadErr⟩ :: r :: rest) dest fs =
        ([V2Event.request, V2Event.retryLog, V2Event.skipLog],
         fsInsert fs (applyExt dest guessedExt) chunks)) := by
  constructor
  · intro cache url dest maxR fsz specs hnc hne hall hlen
    obtain ⟨evs, c', f', heq, hcount, hwaits, _, _⟩ :=
      download_media_v1_netErr cache url dest maxR fsz specs hnc hne hall hlen
    refine ⟨evs, c', f', heq, hcount, hwaits, ?_⟩
    rw [hwaits]
    exact (List.pairwise_lt_range' 0 (maxR - 1) 1 (by omega)).map (2 ^ ·)
      (fun a b h => Nat.pow_le_pow_right (by omega) (Nat.le_of_lt h))
  · intro guessedExt maxR chunks r rest dest fs hnone hm
    unfold download_media_v2
    rw [dmV2Go]
    rw [if_neg (by omega : ¬ maxR ≤ 0), hnone]
    dsimp only
    rw [if_pos (by omega : 0 < maxR - 1)]
    rw [dmV2Go]
    rw [if_neg (by omega : ¬ maxR ≤ 0 + 1)]
    rw [fsLookup_fsInsert_self]

/-- Witness for `c4_amended_backoff`: a three-attempt all-transient-failure
v1 run (two waits, `2 ^ 0` then `2 ^ 1`), and a v2 run whose first attempt
fails mid-body. -/
theorem c4_amended_backoff_witness :
    (∃ evs c' f',
      download_media_v1 emptyCache "uw4" "dw4" 3 0
          [⟨[], AttemptResult.netErr⟩, ⟨[], AttemptResult.netErr⟩,
           ⟨[], AttemptResult.netErr⟩] = Except.ok (evs, c', f') ∧
      evs.countP isRequestEv = 3 ∧
      evs.filterMap waitDetOf = (List.range' 0 2).map (2 ^ ·) ∧
      (evs.filterMap waitDetOf).Pairwise (· ≤ ·)) ∧
    download_media_v2 none 3
        [⟨[9], V2Result.payloadErr⟩, ⟨[], V2Result.payloadErr⟩] "dw4b" [] =
      ([V2Event.request, V2Event.retryLog, V2Event.skipLog],
       fsInsert [] (applyExt "dw4b" none) [9]) :=
  ⟨c4_amended_backoff.1 emptyCache "uw4" "dw4" 3 0
      [⟨[], AttemptResult.netErr⟩, ⟨[], AttemptResult.netErr⟩,
       ⟨[], AttemptResult.netErr⟩] (by decide) (by decide) (by decide) (by decide),
   c4_amended_backoff.2 none 3 [9] ⟨[], V2Result.payloadErr⟩ [] "dw4b" []
      (by decide) (by decide)⟩

/-- **C8** (amended): exhaustion of the retry budget on transient *network*
errors is isolated — `download_media` returns normally, the awaiting
`asyncio.gather` completes, and sibling assets finish and are marked
`"complete"` in the cache.  (A local filesystem write error, by contrast,
escapes `download_media` and aborts the gather — see the counterexample.) -/
theorem c8_amended_isolation
    (maxR : Nat) (specsA : List AttemptSpec)
    (cA cB cC : Cache) (uA dA uB dB uC dC : String)
    (fA fB fC : Nat) (chB chC : List Nat)
    (hAnc : cacheStatus cA uA ≠ some "complete")
    (hA1 : specsA ≠ [])
    (hA2 : ∀ s ∈ specsA, s.result = AttemptResult.netErr)
    (hA3 : specsA.length = maxR)
    (hB : cacheStatus cB uB ≠ some "complete")
    (hC : cacheStatus cC uC ≠ some "complete")
    (hm : 0 < maxR) :
    ∃ evsA c'A f'A evsB c'B f'B evsC c'C f'C,
      download_media_v1 cA uA dA maxR fA specsA = Except.ok (evsA, c'A, f'A) ∧
      download_media_v1 cB uB dB maxR fB [⟨chB, AttemptResult.success⟩] =
        Except.ok (evsB, c'B, f'B) ∧
      c'B uB = some (dB, "complete", cachedSize cB uB + chB.sum) ∧
      download_media_v1 cC uC dC maxR fC [⟨chC, AttemptResult.success⟩] =
        Except.ok (evsC, c'C, f'C) ∧
      c'C uC = some (dC, "complete", cachedSize cC uC + chC.sum) ∧
      runGather
        [taskOutcome (download_media_v1 cA uA dA maxR fA specsA),
         taskOutcome (download_media_v1 cB uB dB maxR fB
           [⟨chB, AttemptResult.success⟩]),
         taskOutcome (download_media_v1 cC uC dC maxR fC
           [⟨chC, AttemptResult.success⟩])] = Except.ok [(), (), ()] := by
  obtain ⟨evsA, c'A, f'A, heqA, _, _, _, _⟩ :=
    download_media_v1_netErr cA uA dA maxR fA specsA hAnc hA1 hA2 hA3
  obtain ⟨evsB, c'B, f'B, heqB, hcompB⟩ :=
    download_media_v1_single_success cB uB dB maxR fB chB hB hm
  obtain ⟨evsC, c'C, f'C, heqC, hcompC⟩ :=
    download_media_v1_single_success cC uC dC maxR fC chC hC hm
  refine ⟨evsA, c'A, f'A, evsB, c'B, f'B, evsC, c'C, f'C,
    heqA, heqB, hcompB, heqC, hcompC, ?_⟩
  rw [heqA, heqB, heqC]
  rfl

/-- Witness for `c8_amended_isolation`: asset A exhausts two transient
failures while assets B and C each succeed in one attempt. -/
theorem c8_amended_isolation_witness :
    ∃ evsA c'A f'A evsB c'B f'B evsC c'C f'C,
      download_media_v1 emptyCache "aw8" "fa" 2 0
          [⟨[], AttemptResult.netErr⟩, ⟨[], AttemptResult.netErr⟩] =
        Except.ok (evsA, c'A, f'A) ∧
      download_media_v1 emptyCache "bw8" "fb" 2 0
          [⟨[6], AttemptResult.success⟩] = Except.ok (evsB, c'B, f'B) ∧
      c'B "bw8" = some ("fb", "complete",
        cachedSize emptyCache "bw8" + List.sum [6]) ∧
      download_media_v1 emptyCache "cw8" "fc" 2 0
          [⟨[8], AttemptResult.success⟩] = Except.ok (evsC, c'C, f'C) ∧
      c'C "cw8" = some ("fc", "complete",
        cachedSize emptyCache "cw8" + List.sum [8]) ∧
      runGather
        [taskOutcome (download_media_v1 emptyCache "aw8" "fa" 2 0
          [⟨[], AttemptResult.netErr⟩, ⟨[], AttemptResult.netErr⟩]),
         taskOutcome (download_media_v1 emptyCache "bw8" "fb" 2 0
          [⟨[6], AttemptResult.success⟩]),
         taskOutcome (download_media_v1 emptyCache "cw8" "fc" 2 0
          [⟨[8], AttemptResult.success⟩])] = Except.ok [(), (), ()] :=
  c8_amended_isolation 2 [⟨[], AttemptResult.netErr⟩, ⟨[], AttemptResult.netErr⟩]
    emptyCache emptyCache emptyCache "aw8" "fa" "bw8" "fb" "cw8" "fc" 0 0 0 [6] [8]
    (by decide) (by decide) (by decide) (by decide) (by decide) (by decide)
    (by decide)

/-- **C6** (amended): a password-gated album with no supplied credential
yields zero media entries and issues zero download requests in both
variants.  The v2 loop exits with the distinct auth-required signal
(`sys.exit(1)` after the stderr message); the v1 iterator, however, just
stops, and `async_main` ends with the same `"No new downloads found"` report
as an up-to-date run — no distinct auth condition (see the counterexample). -/
theorem c6_amended_auth_gating :
    (∀ (album : String) (view : Bool → Nat → PageView) (loginOk : Bool)
       (fuel : Nat),
      view false 1 = PageView.challenge →
      v2Fetch view loginOk none (fuel + 1) 1 false =
        ([RunEvent.pageReq 1], [], FetchOutcome.authRequired) ∧
      v2RunTrace album view loginOk none (fuel + 1) = [RunEvent.pageReq 1]) ∧
    (∀ (album : String) (view : Nat → PageView) (cache : Cache) (fuel : Nat),
      view 1 = PageView.challenge →
      v1iterate view none (fuel + 1) ⟨0, false⟩ =
        ([RunEvent.pageReq 1], [], false) ∧
      v1RunTrace album view none cache (fuel + 1) = [RunEvent.pageReq 1] ∧
      v1Report album view none cache (fuel + 1) =
        some V1Report.noNewDownloads) := by
  constructor
  · intro album view loginOk fuel hch
    have hfetch : v2Fetch view loginOk none (fuel + 1) 1 false =
        ([RunEvent.pageReq 1], [], FetchOutcome.authRequired) := by
      rw [v2Fetch, hch]
      rfl
    refine ⟨hfetch, ?_⟩
    unfold v2RunTrace
    rw [hfetch]
    rfl
  · intro album view cache fuel hch
    have hstep : v1anext view none ⟨0, false⟩ =
        ([RunEvent.pageReq 1], V1Step.stop) := by
      unfold v1anext
      simp [hch]
    have hiter : v1iterate view none (fuel + 1) ⟨0, false⟩ =
        ([RunEvent.pageReq 1], [], false) := by
      rw [v1iterate, hstep]
    refine ⟨hiter, ?_, ?_⟩
    · unfold v1RunTrace
      rw [hiter]
      rfl
    · unfold v1Report
      rw [hiter]
      rfl

/-- Witness for `c6_amended_auth_gating`: a concrete gated album, no
password, in both variants. -/
theorem c6_amended_auth_gating_witness :
    (v2Fetch (fun _ n => if n = 1 then PageView.challenge else PageView.content [])
        true none 3 1 false =
      ([RunEvent.pageReq 1], [], FetchOutcome.authRequired) ∧
     v2RunTrace "a" (fun _ n => if n = 1 then PageView.challenge else PageView.content [])
        true none 3 = [RunEvent.pageReq 1]) ∧
    (v1iterate (fun n => if n = 1 then PageView.challenge else PageView.content [])
        none 3 ⟨0, false⟩ = ([RunEvent.pageReq 1], [], false) ∧
     v1RunTrace "a" (fun n => if n = 1 then PageView.challenge else PageView.content [])
        none emptyCache 3 = [RunEvent.pageReq 1] ∧
     v1Report "a" (fun n => if n = 1 then PageView.challenge else PageView.content [])
        none emptyCache 3 = some V1Report.noNewDownloads) :=
  ⟨c6_amended_auth_gating.1 "a"
      (fun _ n => if n = 1 then PageView.challenge else PageView.content [])
      true 2 (by decide),
   c6_amended_auth_gating.2 "a"
      (fun n => if n = 1 then PageView.challenge else PageView.content [])
      emptyCache 2 (by decide)⟩

/-- The v2 page loop over content pages `P`: pages `s, …, s+k-1` non-empty
and page `s+k` empty requests exactly pages `s, …, s+k` and collects the
media of pages `s, …, s+k-1`. -/
theorem v2Fetch_pages (P : Nat → List Media) (loginOk : Bool)
    (pw : Option String) :
    ∀ (k s fuel : Nat),
      (∀ n, s ≤ n → n < s + k → P n ≠ []) → P (s + k) = [] → k < fuel →
      v2Fetch (fun _ n => PageView.content (P n)) loginOk pw fuel s false =
        ((List.range' s (k + 1)).map RunEvent.pageReq,
         (List.range' s k).map P, FetchOutcome.ok) := by
  intro k
  induction k with
  | zero =>
    intro s fuel hne hend hf
    obtain ⟨f, rfl⟩ : ∃ f, fuel = f + 1 := ⟨fuel - 1, by omega⟩
    rw [v2Fetch.eq_def]
    dsimp only
    rw [if_pos (by simpa using hend)]
    simp
  | succ k ih =>
    intro s fuel hne hend hf
    obtain ⟨f, rfl⟩ : ∃ f, fuel = f + 1 := ⟨fuel - 1, by omega⟩
    rw [v2Fetch.eq_def]
    dsimp only
    rw [if_neg (hne s le_rfl (by omega))]
    rw [ih (s + 1) f (fun n h1 h2 => hne n (by omega) (by omega))
      (by rw [show s + 1 + k = s + (k + 1) from by omega]; exact hend)
      (by omega)]
    simp [List.range'_succ]

/-- The v1 iterator over content pages `P`: starting from iterator state
`⟨s, false⟩`, with pages `s+1, …, s+k` non-empty and page `s+k+1` empty, the
loop requests exactly pages `s+1, …, s+k+1` and yields their payloads
(the final, empty one included). -/
theorem v1iterate_pages (P : Nat → List Media) (pw : Option String) :
    ∀ (k s fuel : Nat),
      (∀ n, s + 1 ≤ n → n < s + 1 + k → P n ≠ []) → P (s + 1 + k) = [] →
      k + 1 < fuel →
      v1iterate (fun n => PageView.content (P n)) pw fuel ⟨s, false⟩ =
        ((List.range' (s + 1) (k + 1)).map RunEvent.pageReq,
         (List.range' (s + 1) (k + 1)).map P, false) := by
  intro k
  induction k with
  | zero =>
    intro s fuel hne hend hf
    obtain ⟨f, rfl⟩ : ∃ f, fuel = f + 1 := ⟨fuel - 1, by omega⟩
    have hP : P (s + 1) = [] := by simpa using hend
    have hstep : v1anext (fun n => PageView.content (P n)) pw ⟨s, false⟩ =
        ([RunEvent.pageReq (s + 1)],
         V1Step.yield (P (s + 1)) ⟨s + 1, true⟩) := by
      unfold v1anext
      simp [hP]
    rw [v1iterate, hstep]
    dsimp only
    obtain ⟨f2, rfl⟩ : ∃ f2, f = f2 + 1 := ⟨f - 1, by omega⟩
    have hstop : v1anext (fun n => PageView.content (P n)) pw ⟨s + 1, true⟩ =
        ([], V1Step.stop) := by
      unfold v1anext
      simp
    rw [v1iterate, hstop]
    simp
  | succ k ih =>
    intro s fuel hne hend hf
    obtain ⟨f, rfl⟩ : ∃ f, fuel = f + 1 := ⟨fuel - 1, by omega⟩
    have hP : P (s + 1) ≠ [] := hne (s + 1) le_rfl (by omega)
    have hstep : v1anext (fun n => PageView.content (P n)) pw ⟨s, false⟩ =
        ([RunEvent.pageReq (s + 1)],
         V1Step.yield (P (s + 1)) ⟨s + 1, false⟩) := by
      unfold v1anext
      simp [List.isEmpty_iff, hP]
    rw [v1iterate, hstep]
    dsimp only
    rw [ih (s + 1) f (fun n h1 h2 => hne n (by omega) (by omega))
      (by rw [show s + 1 + 1 + k = s + 1 + (k + 1) from by omega]; exact hend)
      (by omega)]
    simp [List.range'_succ]

/-- **C7** (confirmed): pages are requested strictly sequentially starting at
page 1, and when pages `1..k` carry non-empty media lists and page `k+1` an
empty one, both variants request exactly pages `1, …, k+1` (in that
increasing order, with no request beyond `k+1`) and the media processed are
exactly those of pages `1..k` — the v1 iterator also yields the final empty
page, which contributes no media entry, as the third conjunct records. -/
theorem c7_pagination_termination (k fuel : Nat) (P : Nat → List Media)
    (pw : Option String) (loginOk : Bool)
    (hne : ∀ n, 1 ≤ n → n ≤ k → P n ≠ []) (hend : P (k + 1) = [])
    (hfuel : k + 2 ≤ fuel) :
    v2Fetch (fun _ n => PageView.content (P n)) loginOk pw fuel 1 false =
      ((List.range' 1 (k + 1)).map RunEvent.pageReq,
       (List.range' 1 k).map P, FetchOutcome.ok) ∧
    v1iterate (fun n => PageView.content (P n)) pw fuel ⟨0, false⟩ =
      ((List.range' 1 (k + 1)).map RunEvent.pageReq,
       (List.range' 1 (k + 1)).map P, false) ∧
    ((List.range' 1 (k + 1)).map P).flatten =
      ((List.range' 1 k).map P).flatten := by
  refine ⟨?_, ?_, ?_⟩
  · exact v2Fetch_pages P loginOk pw k 1 fuel
      (fun n h1 h2 => hne n h1 (by omega))
      (by rw [show (1 : Nat) + k = k + 1 from by omega]; exact hend)
      (by omega)
  · exact v1iterate_pages P pw k 0 fuel
      (fun n h1 h2 => hne n h1 (by omega))
      (by rw [show (0 : Nat) + 1 + k = k + 1 from by omega]; exact hend)
      (by omega)
  · rw [List.range'_1_concat, List.map_append, List.flatten_append]
    simp [show P (1 + k) = [] from by
      rw [show (1 : Nat) + k = k + 1 from by omega]; exact hend]

/-- Witness for `c7_pagination_termination`: one non-empty page followed by
an empty page two. -/
theorem c7_pagination_termination_witness :
    v2Fetch (fun _ n => PageView.content
        (if n = 1 then [sampleMedia] else [])) true none 4 1 false =
      ((List.range' 1 2).map RunEvent.pageReq,
       (List.range' 1 1).map (fun n =>
         if n = 1 then [sampleMedia] else []), FetchOutcome.ok) ∧
    v1iterate (fun n => PageView.content
        (if n = 1 then [sampleMedia] else [])) none 4 ⟨0, false⟩ =
      ((List.range' 1 2).map RunEvent.pageReq,
       (List.range' 1 2).map (fun n =>
         if n = 1 then [sampleMedia] else []), false) ∧
    ((List.range' 1 2).map (fun n =>
        if n = 1 then [sampleMedia] else [])).flatten =
      ((List.range' 1 1).map (fun n =>
        if n = 1 then [sampleMedia] else [])).flatten :=
  c7_pagination_termination 1 4
    (fun n => if n = 1 then [sampleMedia] else []) none true
    (by intro n h1 h2
        have : n = 1 := by omega
        subst this
        decide)
    (by decide) (by decide)

/-- **C9** (confirmed): under any interleaving of the `sem_task`s of
`gather_with_concurrency 4` (the value both variants pass), every reachable
scheduler state has at most 4 active transfers, and any step that admits a
new transfer requires a free permit and can only fire below the cap —
`active + permits = 4` is invariant, permits are freed only by `finish`
steps, and `start` is enabled only when `0 < permits`. -/
theorem c9_concurrency_bound (tasks : Nat) (s : SemState)
    (h : SemReachable 4 tasks s) :
    s.active ≤ 4 ∧
    (∀ s', SemStep s s' → s.active < s'.active →
      0 < s.permits ∧ s.active < 4) := by
  have hinv : s.active + s.permits = 4 := by
    induction h with
    | refl => rfl
    | tail _ hstep ih =>
      cases hstep with
      | start p a q => dsimp only at ih ⊢; omega
      | finish p a q => dsimp only at ih ⊢; omega
  refine ⟨by omega, ?_⟩
  intro s' hstep hincr
  cases hstep with
  | start p a q => dsimp only at hinv hincr ⊢; omega
  | finish p a q => dsimp only at hincr; omega

/-- Witness for `c9_concurrency_bound`: the initial state of a five-task
run is reachable and satisfies the bound. -/
theorem c9_concurrency_bound_witness :
    (semInit 4 5).active ≤ 4 ∧
    (∀ s', SemStep (semInit 4 5) s' → (semInit 4 5).active < s'.active →
      0 < (semInit 4 5).permits ∧ (semInit 4 5).active < 4) :=
  c9_concurrency_bound 5 (semInit 4 5) Relation.ReflTransGen.refl

/-- The v2 page loop issues only page and login requests. -/
theorem v2Fetch_no_dlReq (view : Bool → Nat → PageView) (loginOk : Bool)
    (pw : Option String) :
    ∀ (fuel page : Nat) (authed : Bool) (u : String),
      RunEvent.dlReq u ∉ (v2Fetch view loginOk pw fuel page authed).1 := by
  intro fuel
  induction fuel with
  | zero => intro page authed u h; simp [v2Fetch] at h
  | succ f ih =>
    intro page authed u
    rw [v2Fetch]
    cases view authed page with
    | challenge =>
      dsimp only
      by_cases hp : page = 1
      · rw [if_pos hp]
        by_cases hpw : pw = none
        · rw [if_pos hpw]
          intro h; simp at h
        · rw [if_neg hpw]
          by_cases hl : loginOk
          · rw [if_pos hl]
            dsimp only
            intro h
            rcases List.mem_cons.mp h with h | h
            · cases h
            rcases List.mem_cons.mp h with h | h
            · cases h
            exact ih page true u h
          · rw [if_neg hl]
            intro h; simp at h
      · rw [if_neg hp]
        intro h; simp at h
    | content media =>
      dsimp only
      by_cases hm : media = []
      · rw [if_pos hm]
        intro h; simp at h
      · rw [if_neg hm]
        dsimp only
        intro h
        rcases List.mem_cons.mp h with h | h
        · cases h
        exact ih (page + 1) authed u h

/-- One v1 iterator step issues only page and login requests. -/
theorem v1anext_no_dlReq (view : Nat → PageView) (pw : Option String)
    (st : V1St) (u : String) :
    RunEvent.dlReq u ∉ (v1anext view pw st).1 := by
  unfold v1anext
  by_cases hl : st.lastPage
  · rw [if_pos hl]; simp
  · rw [if_neg hl]
    dsimp only
    cases view (st.page + 1) with
    | challenge =>
      by_cases hp : st.page + 1 = 1
      · rw [if_pos hp]
        cases pw <;> simp
      · rw [if_neg hp]; simp
    | content media => simp

/-- The v1 page loop issues only page and login requests. -/
theorem v1iterate_no_dlReq (view : Nat → PageView) (pw : Option String) :
    ∀ (fuel : Nat) (st : V1St) (u : String),
      RunEvent.dlReq u ∉ (v1iterate view pw fuel st).1 := by
  intro fuel
  induction fuel with
  | zero => intro st u h; simp [v1iterate] at h
  | succ f ih =>
    intro st u
    rw [v1iterate]
    cases hstep : v1anext view pw st with
    | mk evs step =>
      have hev : RunEvent.dlReq u ∉ evs := by
        have := v1anext_no_dlReq view pw st u
        rw [hstep] at this
        exact this
      cases step with
      | stop => exact hev
      | err => exact hev
      | yield m st' =>
        dsimp only
        intro h
        rcases List.mem_append.mp h with h | h
        · exact hev h
        · exact ih st' u h

/-- In a list made of a download-free prefix and a page-free suffix, every
page request precedes every download request. -/
theorem pageReq_before_dlReq {l₁ l₂ : List RunEvent} {i j n : Nat} {u : String}
    (h₁ : ∀ v, RunEvent.dlReq v ∉ l₁) (h₂ : ∀ m, RunEvent.pageReq m ∉ l₂)
    (hi : (l₁ ++ l₂)[i]? = some (RunEvent.pageReq n))
    (hj : (l₁ ++ l₂)[j]? = some (RunEvent.dlReq u)) : i < j := by
  have hi' : i < l₁.length := by
    by_contra hge
    rw [List.getElem?_append_right (by omega)] at hi
    exact h₂ n (List.getElem?_mem hi)
  have hj' : l₁.length ≤ j := by
    by_contra hlt
    rw [List.getElem?_append_left (by omega)] at hj
    exact h₁ u (List.getElem?_mem hj)
  omega

/-- **C10** (confirmed): in both variants every download coroutine is only
accumulated while the page loop runs and `gather_with_concurrency` is awaited
only after the loop ends, so in the full request trace every page request
strictly precedes every asset download request. -/
theorem c10_downloads_after_pagination :
    (∀ (album : String) (view : Bool → Nat → PageView) (loginOk : Bool)
       (pw : Option String) (fuel i j n : Nat) (u : String),
      (v2RunTrace album view loginOk pw fuel)[i]? =
        some (RunEvent.pageReq n) →
      (v2RunTrace album view loginOk pw fuel)[j]? =
        some (RunEvent.dlReq u) →
      i < j) ∧
    (∀ (album : String) (view : Nat → PageView) (pw : Option String)
       (cache : Cache) (fuel i j n : Nat) (u : String),
      (v1RunTrace album view pw cache fuel)[i]? =
        some (RunEvent.pageReq n) →
      (v1RunTrace album view pw cache fuel)[j]? =
        some (RunEvent.dlReq u) →
      i < j) := by
  constructor
  · intro album view loginOk pw fuel i j n u hi hj
    unfold v2RunTrace at hi hj
    refine pageReq_before_dlReq
      (fun v => v2Fetch_no_dlReq view loginOk pw fuel 1 false v) ?_ hi hj
    intro m
    cases (v2Fetch view loginOk pw fuel 1 false).2.2 <;> simp [v2DlPhase]
  · intro album view pw cache fuel i j n u hi hj
    unfold v1RunTrace at hi hj
    refine pageReq_before_dlReq
      (fun v => v1iterate_no_dlReq view pw fuel ⟨0, false⟩ v) ?_ hi hj
    intro m
    unfold v1DlPhase
    cases (v1iterate view pw fuel ⟨0, false⟩).2.2 <;> simp

/-- Witness for `c10_downloads_after_pagination`: a two-page v2 run with one
asset; its trace is `[pageReq 1, pageReq 2, dlReq …]` and the theorem places
the page request at index 1 before the download request at index 2. -/
theorem c10_downloads_after_pagination_witness :
    (v2RunTrace "a" (fun _ n => PageView.content
        (if n = 1 then [sampleMedia] else [])) true none 4)[1]? =
      some (RunEvent.pageReq 2) ∧
    (v2RunTrace "a" (fun _ n => PageView.content
        (if n = 1 then [sampleMedia] else [])) true none 4)[2]? =
      some (RunEvent.dlReq "a/media_files/m1/download") ∧
    (1 : Nat) < 2 :=
  ⟨by decide, by decide,
   c10_downloads_after_pagination.1 "a"
     (fun _ n => PageView.content (if n = 1 then [sampleMedia] else []))
     true none 4 1 2 2 "a/media_files/m1/download" (by decide) (by decide)⟩
